import Mathlib

/-!
Verification of the fipi_api scraping library (`src/fipilib`) against its
natural-language specification.  Python code is shallowly embedded: pure
functions become Lean functions, Python values that are only consumed
through `str()` are represented by their string rendering, Python `None` /
exceptions become `Option`, and BeautifulSoup documents become an explicit
tree type `Node` with bs4's search primitives (`find`, `find_all`,
`find_parent`, `find_previous_sibling`, `get_text`, serialization)
re-implemented over it.
-/

namespace Fipi

/-! ## Result model (`fipilib/models/result.py`) -/

/-- `CheckResult` enumeration from `models/result.py`: CORRECT, INCORRECT,
PARTIALLY_CORRECT, ERROR. -/
inductive CheckResult where
  | correct
  | incorrect
  | partiallyCorrect
  | error
  deriving DecidableEq, Repr

/-- `BaseChecker._parse_result_code` (`core/base_checker.py`): look the code up
in `{'1': CORRECT, '3': CORRECT, '2': INCORRECT, '0': ERROR}`, defaulting to
ERROR. -/
def parseResultCode (code : String) : CheckResult :=
  if code = "1" then .correct
  else if code = "3" then .correct
  else if code = "2" then .incorrect
  else if code = "0" then .error
  else .error

/-! ## Task model (`fipilib/models/task.py`) -/

/-- `TaskType` enumeration. -/
inductive TaskType where
  | shortAnswer
  | multipleChoice
  | matching
  | extendedAnswer
  deriving DecidableEq, Repr

/-- `AnswerVariant` dataclass. -/
structure AnswerVariant where
  index : Nat
  text : String
  input_name : String
  deriving DecidableEq, Repr

/-- `MatchingOption` dataclass. -/
structure MatchingOption where
  letter : String
  text : String
  select_name : String
  deriving DecidableEq, Repr

/-- `MatchingChoice` dataclass. -/
structure MatchingChoice where
  number : String
  text : String
  deriving DecidableEq, Repr

/-- `Task` dataclass.  Optional list fields default to Python `None`, encoded
as `Option`; an empty list (`some []`) is distinct from `none` but both are
falsy in Python, which matters for `_format_multiple_choice`. -/
structure Task where
  guid : String
  task_id : String
  subject : String
  task_type : TaskType
  question_text : String
  question_html : String
  answer_variants : Option (List AnswerVariant) := none
  matching_options : Option (List MatchingOption) := none
  matching_choices : Option (List MatchingChoice) := none
  answer_unit : Option String := none
  images : List String := []
  kes_codes : List String := []
  deriving DecidableEq, Repr

/-! ## Python string primitives

`str.strip()` removes leading/trailing Unicode whitespace; the same set
approximates `\s` of the `re` module on `str` patterns. -/

/-- Characters Python's `str.strip()` (no argument) removes: ASCII whitespace
plus the Unicode space characters. -/
def pyIsSpace (c : Char) : Bool :=
  c == ' ' || c == '\t' || c == '\n' || c == '\r' ||
  c == Char.ofNat 11 || c == Char.ofNat 12 ||
  c == Char.ofNat 0x1c || c == Char.ofNat 0x1d ||
  c == Char.ofNat 0x1e || c == Char.ofNat 0x1f ||
  c == Char.ofNat 0x85 || c == Char.ofNat 0xa0 ||
  c == Char.ofNat 0x1680 ||
  (decide (0x2000 ≤ c.toNat) && decide (c.toNat ≤ 0x200a)) ||
  c == Char.ofNat 0x2028 || c == Char.ofNat 0x2029 ||
  c == Char.ofNat 0x202f || c == Char.ofNat 0x205f ||
  c == Char.ofNat 0x3000

/-- Python `s.strip()` with no argument. -/
def pyStrip (s : String) : String :=
  String.mk (((s.data.dropWhile pyIsSpace).reverse.dropWhile pyIsSpace).reverse)

/-! ## Answer helpers (`fipilib/utils/answer_helpers.py`) -/

/-- `AnswerHelper.binary_string_to_indices`: positions of the `'1'` characters,
via `enumerate`.  Python ints are modelled as `Int`. -/
def binaryStringToIndices (binaryStr : String) : List Int :=
  binaryStr.data.enum.filterMap
    (fun p => if p.2 = '1' then some (p.1 : Int) else none)

/-- `AnswerHelper.indices_to_binary_string`: start from `['0'] * total` and set
`bits[idx] = '1'` for each index with `0 <= idx < total`. -/
def indicesToBinaryString (indices : List Int) (total : Nat) : String :=
  String.mk (indices.foldl
    (fun bits idx =>
      if 0 ≤ idx ∧ idx < (total : Int) then bits.set idx.toNat '1' else bits)
    (List.replicate total '0'))

/-! ## Default checker (`fipilib/subjects/default/checker.py`) -/

/-- Caller value passed to `DefaultChecker._format_multiple_choice`: either a
pre-encoded string or a list of Python-int indices (every other iterable the
code accepts is consumed exactly like a list). -/
inductive MultiChoiceInput where
  | str (s : String)
  | idxs (l : List Int)
  deriving DecidableEq, Repr

/-- The local `num_variants` of `_format_multiple_choice`:
`len(task.answer_variants) if task.answer_variants else 5` — Python
truthiness makes both `None` and the empty list fall back to 5. -/
def numVariants (task : Task) : Nat :=
  match task.answer_variants with
  | some vs => if vs = [] then 5 else vs.length
  | none => 5

/-- `DefaultChecker._format_multiple_choice`: strings pass through; otherwise
build `['0'] * num_variants` and set `'1'` at each in-range index. -/
def formatMultipleChoice (task : Task) (userInput : MultiChoiceInput) : String :=
  match userInput with
  | .str s => s
  | .idxs l =>
      String.mk (l.foldl
        (fun bits idx =>
          if 0 ≤ idx ∧ idx < (numVariants task : Int) then bits.set idx.toNat '1'
          else bits)
        (List.replicate (numVariants task) '0'))

/-- Caller value passed to `DefaultChecker._format_matching`.  Dict values and
sequence elements are only consumed through `str(...)`, so they are
represented by their string rendering; `dict` keeps Python's insertion
order. -/
inductive MatchingInput where
  | str (s : String)
  | dict (kvs : List (String × String))
  | seq (xs : List String)
  | other (s : String)
  deriving DecidableEq, Repr

/-- Python's `<=` on strings: lexicographic by code point. -/
def lexLe : List Char → List Char → Bool
  | [], _ => true
  | _ :: _, [] => false
  | c :: cs, d :: ds => if c = d then lexLe cs ds else decide (c < d)

/-- Python string comparison, as `sorted` uses it. -/
def StrLe (a b : String) : Prop :=
  lexLe a.data b.data = true

instance : DecidableRel StrLe :=
  fun a b => Bool.decEq (lexLe a.data b.data) true

/-- Python dict lookup (`user_input[letter]`): the value stored at the key.
The model keeps the dict as an insertion-ordered association list with
distinct keys, so taking the first binding is exact. -/
def dictGet (k : String) : List (String × String) → Option String
  | [] => none
  | (k', v) :: rest => if k = k' then some v else dictGet k rest

/-- `DefaultChecker._format_matching`: strings pass through; dicts are read in
`sorted(keys)` order concatenating the values (on distinct keys Python's
`sorted` returns the unique permutation ordered by `StrLe`, which insertion
sort also produces); lists/tuples are concatenated directly; anything else is
`str(...)`-ed. -/
def formatMatching (userInput : MatchingInput) : String :=
  match userInput with
  | .str s => s
  | .dict kvs =>
      let sortedLetters := List.insertionSort StrLe (kvs.map Prod.fst)
      String.join (sortedLetters.map (fun letter => (dictGet letter kvs).getD ""))
  | .seq xs => String.join xs
  | .other s => s

/-! ## Math and physics checkers
(`fipilib/subjects/math_prof/checker.py`, `fipilib/subjects/physics/checker.py`)

The caller value is only consumed through `str(...)`, so the functions take
its string rendering. -/

/-- `MathProfChecker._format_math_short_answer`: `str(x).strip()`, then
`.replace(',', '.')`, then `.replace(' ', '')` (only U+0020 spaces). -/
def formatMathShortAnswer (userInput : String) : String :=
  let answer := pyStrip userInput
  let answer := String.mk (answer.data.map (fun c => if c = ',' then '.' else c))
  let answer := String.mk (answer.data.filter (fun c => c != ' '))
  answer

/-- `PhysicsChecker._format_physics_short_answer`: identical body to the math
variant. -/
def formatPhysicsShortAnswer (userInput : String) : String :=
  let answer := pyStrip userInput
  let answer := String.mk (answer.data.map (fun c => if c = ',' then '.' else c))
  let answer := String.mk (answer.data.filter (fun c => c != ' '))
  answer

/-! ## Subject configuration (`fipilib/models/config.py`,
`fipilib/subjects/__init__.py`) -/

/-- `SubjectConfig` dataclass (`request_delay`, a Python float `1.0`, is
modelled as a rational). -/
structure SubjectConfig where
  subject_key : String
  project_id : String
  display_name : String
  base_url : String := "https://ege.fipi.ru"
  request_timeout : Nat := 30
  request_delay : ℚ := 1
  deriving DecidableEq, Repr

/-- The fixed `SUBJECTS` table. -/
def SUBJECTS : List (String × SubjectConfig) :=
  [("physics",
    { subject_key := "physics"
      project_id := "BA1F39653304A5B041B656915DC36B38"
      display_name := "Физика" }),
   ("math_prof",
    { subject_key := "math_prof"
      project_id := "AC437B34557F88EA4115D2F374B0A07B"
      display_name := "Математика (профильный уровень)" }),
   ("russian",
    { subject_key := "russian"
      project_id := "CA9D848CF10554A28617021C9211069B"
      display_name := "Русский язык" })]

/-- `get_subject_config`: raise `ValueError` (modelled as `.error`) when the
key is not in `SUBJECTS`, otherwise return the table entry. -/
def getSubjectConfig (subjectKey : String) : Except String SubjectConfig :=
  match SUBJECTS.lookup subjectKey with
  | some c => .ok c
  | none => .error ("Предмет не найден: " ++ subjectKey)

/-- The parser classes `get_parser` can instantiate. -/
inductive ParserKind where
  | physicsParser
  | mathProfParser
  | russianParser
  | defaultParser
  deriving DecidableEq, Repr

/-- The checker classes `get_checker` can instantiate. -/
inductive CheckerKind where
  | physicsChecker
  | mathProfChecker
  | russianChecker
  | defaultChecker
  deriving DecidableEq, Repr

/-- The `_PARSERS` registry after the module-import-time `register()` calls. -/
def REGISTERED_PARSERS : List (String × ParserKind) :=
  [("physics", .physicsParser), ("math_prof", .mathProfParser),
   ("russian", .russianParser)]

/-- The `_CHECKERS` registry after the module-import-time `register()` calls. -/
def REGISTERED_CHECKERS : List (String × CheckerKind) :=
  [("physics", .physicsChecker), ("math_prof", .mathProfChecker),
   ("russian", .russianChecker)]

/-- `get_parser`: `get_subject_config` first (its `ValueError` propagates),
then the registered class or the `DefaultParser` fallback. -/
def getParser (subjectKey : String) : Except String ParserKind :=
  match getSubjectConfig subjectKey with
  | .error e => .error e
  | .ok _ => .ok ((REGISTERED_PARSERS.lookup subjectKey).getD .defaultParser)

/-- `get_checker`: `get_subject_config` first (its `ValueError` propagates),
then the registered class or the `DefaultChecker` fallback. -/
def getChecker (subjectKey : String) : Except String CheckerKind :=
  match getSubjectConfig subjectKey with
  | .error e => .error e
  | .ok _ => .ok ((REGISTERED_CHECKERS.lookup subjectKey).getD .defaultChecker)

/-! ## BeautifulSoup document model

A parsed markup fragment is a tree: elements carry their tag, the attribute
list in document order, and their children; text nodes carry their string
(with entities already decoded, as bs4 stores them).  bs4 search primitives
are re-implemented: `find`/`find_all` walk the strict descendants in
pre-order; `find_parent` and `find_previous_sibling` need each node's
ancestor chain and earlier siblings, which the `entries` walk records. -/

inductive Node where
  | elem (tag : String) (attrs : List (String × String)) (children : List Node)
  | text (s : String)

/-- One ancestor of a node: the ancestor element itself and its own earlier
siblings (nearest first) inside *its* parent. -/
structure Frame where
  node : Node
  left : List Node

/-- One node of a walk: the node, its earlier siblings (nearest first) and its
ancestor chain (nearest first). -/
structure Entry where
  node : Node
  left : List Node
  anc : List Frame

mutual

/-- All strict descendants of `c` (whose own earlier siblings are `left` and
whose ancestors are `anc`), in document (pre-order) order, each with its
context. -/
def entriesN : Node → List Node → List Frame → List Entry
  | .text _, _, _ => []
  | .elem t a cs, left, anc => entriesL cs [] (⟨.elem t a cs, left⟩ :: anc)

/-- Walk a sibling list: `left` accumulates the earlier siblings of the head,
nearest first. -/
def entriesL : List Node → List Node → List Frame → List Entry
  | [], _, _ => []
  | c :: rest, left, anc =>
      ⟨c, left, anc⟩ :: (entriesN c left anc ++ entriesL rest (c :: left) anc)

end

/-- The contextualised strict descendants of a free-standing root. -/
def Node.entries (root : Node) : List Entry :=
  entriesN root [] []

/-- Strict descendants in document order (what `find_all` scans). -/
def Node.descendants (root : Node) : List Node :=
  root.entries.map Entry.node

/-- bs4 `find(...)`: first strict descendant matching, in document order. -/
def Node.findFirst (root : Node) (p : Node → Bool) : Option Node :=
  root.descendants.find? p

/-- bs4 `find_all(...)` restricted to a predicate. -/
def Node.findAll (root : Node) (p : Node → Bool) : List Node :=
  root.descendants.filter p

/-- The tag of an element, `none` for a text node. -/
def Node.tag? : Node → Option String
  | .elem t _ _ => some t
  | .text _ => none

/-- bs4 `tag.get(key)`: the attribute value if present. -/
def Node.attr? : Node → String → Option String
  | .elem _ attrs _, key => attrs.lookup key
  | .text _, _ => none

/-- Is this an element with the given tag? -/
def Node.isTag (n : Node) (t : String) : Bool :=
  n.tag? == some t

mutual

/-- The strings of all text descendants (and of a text node itself), in
document order — bs4's `_all_strings`. -/
def stringsN : Node → List String
  | .text s => [s]
  | .elem _ _ cs => stringsL cs

def stringsL : List Node → List String
  | [] => []
  | c :: rest => stringsN c ++ stringsL rest

end

/-- bs4 `get_text()`: concatenation of all text descendants. -/
def Node.getText (n : Node) : String :=
  String.join (stringsN n)

/-- bs4 `get_text(strip=True)`: each string stripped before joining. -/
def Node.getTextStrip (n : Node) : String :=
  String.join ((stringsN n).map pyStrip)

/-- bs4 multi-valued `class` matching: the attribute value is split on
whitespace and the wanted class must be one of the parts. -/
def splitWs (s : String) : List String :=
  (s.data.splitOnP pyIsSpace).filterMap
    (fun l => if l = [] then none else some (String.mk l))

/-- Does the element's `class` attribute contain the given class? -/
def Node.hasClass (n : Node) (cls : String) : Bool :=
  match n.attr? "class" with
  | some v => (splitWs v).contains cls
  | none => false

/-! ## Serialization and text cleaning -/

/-- The empty-element (void) tags of bs4's HTML tree builders: rendered
self-closing, never with a closing tag. -/
def isVoidTag (t : String) : Bool :=
  ["area", "base", "br", "col", "embed", "hr", "img", "input", "keygen",
   "link", "menuitem", "meta", "param", "source", "track", "wbr"].contains t

/-- bs4's minimal output formatter escapes `&`, `<`, `>` in text. -/
def escTextChar (c : Char) : String :=
  if c = '&' then "&amp;"
  else if c = '<' then "&lt;"
  else if c = '>' then "&gt;"
  else String.mk [c]

/-- Escape a text node for serialization. -/
def escText (s : String) : String :=
  String.join (s.data.map escTextChar)

/-- Escape an attribute value (additionally `"` since values are
double-quoted). -/
def escAttrValue (s : String) : String :=
  String.join (s.data.map (fun c => if c = '"' then "&quot;" else escTextChar c))

/-- Render an attribute list, in stored (document) order. -/
def renderAttrs (attrs : List (String × String)) : String :=
  String.join (attrs.map (fun kv => " " ++ kv.1 ++ "=\"" ++ escAttrValue kv.2 ++ "\""))

mutual

/-- `str(tag)`: bs4's serialization of a subtree. -/
def renderN : Node → String
  | .text s => escText s
  | .elem t a cs =>
      if isVoidTag t then "<" ++ t ++ renderAttrs a ++ "/>"
      else "<" ++ t ++ renderAttrs a ++ ">" ++ renderL cs ++ "</" ++ t ++ ">"

def renderL : List Node → String
  | [] => ""
  | c :: rest => renderN c ++ renderL rest

end

/-- The worker of `collapseWs`: `prevSpace` records whether the previous
character belonged to a whitespace run (whose single `' '` is already
emitted). -/
def collapseWsAux : Bool → List Char → List Char
  | _, [] => []
  | prevSpace, c :: rest =>
      if pyIsSpace c then
        if prevSpace then collapseWsAux true rest
        else ' ' :: collapseWsAux true rest
      else c :: collapseWsAux false rest

/-- `re.sub(r'\s+', ' ', text)`: collapse every whitespace run to one space. -/
def collapseWs (l : List Char) : List Char :=
  collapseWsAux false l

/-- The worker of `replaceSub`, structurally recursive on a fuel that bounds
the number of steps (each step consumes at least one character, so
`s.length` fuel is always enough). -/
def replaceSubF (needle repl : List Char) : Nat → List Char → List Char
  | _, [] => []
  | 0, s => s
  | fuel + 1, c :: rest =>
      if needle.isPrefixOf (c :: rest) ∧ needle ≠ [] then
        repl ++ replaceSubF needle repl fuel (rest.drop (needle.length - 1))
      else c :: replaceSubF needle repl fuel rest

/-- Python `s.replace(old, new)` for a non-empty `old`: left-to-right,
non-overlapping. -/
def replaceSub (needle repl s : List Char) : List Char :=
  replaceSubF needle repl s.length s

/-- `BaseParser._clean_text`: collapse whitespace runs, strip, then replace
the literal text `&nbsp;` with a space. -/
def cleanText (s : String) : String :=
  let t := String.mk (collapseWs s.data)
  let t := pyStrip t
  String.mk (replaceSub "&nbsp;".data " ".data t.data)

/-- Python `str.lower()` on the alphabets this code meets: ASCII and the
Cyrillic block (`А..Я → а..я`, `Ѐ..Џ → ѐ..џ`). -/
def pyLowerChar (c : Char) : Char :=
  if decide ('A' ≤ c) && decide (c ≤ 'Z') then Char.ofNat (c.toNat + 0x20)
  else if decide (0x410 ≤ c.toNat) && decide (c.toNat ≤ 0x42f) then
    Char.ofNat (c.toNat + 0x20)
  else if decide (0x400 ≤ c.toNat) && decide (c.toNat ≤ 0x40f) then
    Char.ofNat (c.toNat + 0x50)
  else c

/-- Python `str.lower()`. -/
def pyLower (s : String) : String :=
  String.mk (s.data.map pyLowerChar)

/-- Python `needle in hay` on strings: contiguous-substring containment. -/
def strContains (hay needle : String) : Bool :=
  decide (needle.data <:+: hay.data)

/-! ## Control predicates used by the parsers -/

/-- `find('input', {'type': 'text', 'name': 'answer'})`. -/
def isTextAnswerInput (n : Node) : Bool :=
  n.isTag "input" && n.attr? "type" == some "text" && n.attr? "name" == some "answer"

/-- `find_all('input', {'type': 'checkbox'})`. -/
def isCheckboxInput (n : Node) : Bool :=
  n.isTag "input" && n.attr? "type" == some "checkbox"

/-- `find_all('select')`. -/
def isSelectElem (n : Node) : Bool :=
  n.isTag "select"

/-- `find('div', class_='varinats-block')` (the typo is the portal's). -/
def isVariantsBlockDiv (n : Node) : Bool :=
  n.isTag "div" && n.hasClass "varinats-block"

/-- `find('input', {'name': 'guid'})` — note: any `input` named `guid`,
whatever its `type`. -/
def isGuidInput (n : Node) : Bool :=
  n.isTag "input" && n.attr? "name" == some "guid"

/-- `find('span', class_='canselect')`. -/
def isCanselectSpan (n : Node) : Bool :=
  n.isTag "span" && n.hasClass "canselect"

/-- `find('td', class_='cell_0')`. -/
def isCell0 (n : Node) : Bool :=
  n.isTag "td" && n.hasClass "cell_0"

/-- `find_all('tr', class_='active-distractor')`. -/
def isActiveDistractorRow (n : Node) : Bool :=
  n.isTag "tr" && n.hasClass "active-distractor"

/-- A `td` element. -/
def isTd (n : Node) : Bool :=
  n.isTag "td"

/-- A `tr` element. -/
def isTr (n : Node) : Bool :=
  n.isTag "tr"

/-- bs4 truthiness of a found node (`if text_cell`): a Tag is falsy iff it has
no children, a string iff it is empty. -/
def Node.pyTruthy : Node → Bool
  | .elem _ _ cs => !cs.isEmpty
  | .text s => !(s == "")

/-! ## Default parser (`fipilib/subjects/default/parser.py`) -/

/-- The `dict` of answer data `parse_answer_block` returns, splatted into the
`Task` constructor; missing keys fall back to the dataclass `None`
defaults. -/
structure AnswerData where
  answer_variants : Option (List AnswerVariant) := none
  matching_options : Option (List MatchingOption) := none
  matching_choices : Option (List MatchingChoice) := none
  answer_unit : Option String := none
  deriving DecidableEq, Repr

/-- The character class `[а-яА-Яa-zA-Z°]` of the unit-hint pattern. -/
def isUnitTokenChar (c : Char) : Bool :=
  (decide (0x430 ≤ c.toNat) && decide (c.toNat ≤ 0x44f)) ||
  (decide (0x410 ≤ c.toNat) && decide (c.toNat ≤ 0x42f)) ||
  (decide ('a' ≤ c) && decide (c ≤ 'z')) ||
  (decide ('A' ≤ c) && decide (c ≤ 'Z')) ||
  c == Char.ofNat 0xb0

/-- `re.search(r'</input>\s*([а-яА-Яa-zA-Z°]+)', ...)`: first position where
the literal `</input>` is followed by optional whitespace and at least one
letter/degree character; returns the captured token.  (The whitespace class
and the token class are disjoint, so the regex never backtracks.) -/
def unitHintFrom : List Char → Option String
  | [] => none
  | c :: rest =>
      (if "</input>".data.isPrefixOf (c :: rest) then
        let t := (rest.drop 7).dropWhile pyIsSpace
        let tok := t.takeWhile isUnitTokenChar
        if tok.isEmpty then none else some (String.mk tok)
      else none).orElse (fun _ => unitHintFrom rest)

/-- `DefaultParser._parse_short_answer`: re-find the answer input, then search
the *serialization of its parent* for a unit token trailing a literal
`</input>`.  (bs4 serializes `input` as a void element, so the literal
`</input>` never occurs in practice and the hint stays `None`; the search is
modelled faithfully all the same.) -/
def parseShortAnswerData (scope : Entry) : TaskType × AnswerData :=
  let entries := entriesN scope.node scope.left scope.anc
  let answerUnit : Option String :=
    match entries.find? (fun e => isTextAnswerInput e.node) with
    | some e =>
        match e.anc with
        | parent :: _ =>
            match unitHintFrom (renderN parent.node).data with
            | some u => some (pyStrip u)
            | none => none
        | [] => none
    | none => none
  (.shortAnswer, { answer_unit := answerUnit })

/-- One iteration of the `_parse_multiple_choice` row loop (`p` is the
`enumerate` pair): rows without a checkbox are skipped (but still consume
their index); the label is the text of the row's last `td`
(`find_all('td')[-1]` raises `IndexError` — the `none` accumulator — when the
row has a checkbox but no `td`); the field name defaults to `test{idx}`. -/
def mcStep (acc : Option (List AnswerVariant)) (p : Nat × Node) :
    Option (List AnswerVariant) :=
  acc.bind (fun variants =>
    match (p.2).findFirst isCheckboxInput with
    | none => some variants
    | some checkbox =>
        match ((p.2).findAll isTd).getLast? with
        | none => none
        | some textCell =>
            let variantText :=
              if textCell.pyTruthy then cleanText textCell.getText else ""
            let inputName := (checkbox.attr? "name").getD ("test" ++ toString p.1)
            some (variants ++ [⟨p.1, variantText, inputName⟩]))

/-- `DefaultParser._parse_multiple_choice`: fold `mcStep` over the enumerated
`tr.active-distractor` rows. -/
def parseMultipleChoiceData (scope : Entry) : Option (TaskType × AnswerData) :=
  let entries := entriesN scope.node scope.left scope.anc
  let activeRows := (entries.map Entry.node).filter isActiveDistractorRow
  match activeRows.enum.foldl mcStep (some []) with
  | none => none
  | some variants => some (.multipleChoice, { answer_variants := some variants })

/-- The left-hand letter for the `idx`-th select, given the frame of its
cell: the cleaned text of the nearest earlier sibling `td`, else the `idx`-th
Cyrillic letter from `А`. -/
def optionLetterOf (parentTd : Frame) (idx : Nat) : String :=
  match parentTd.left.find? isTd with
  | some prevTd => cleanText prevTd.getText
  | none => String.mk [Char.ofNat (0x410 + idx)]

/-- One iteration of the `_parse_matching` select loop (`p` is the
`enumerate` pair): field name from the `name` attribute (default
`ans{idx}`); nothing when the select has no `td` ancestor (the
`if parent_td:` guard); the label is `"Вариант <letter>"`. -/
def matchingOptionOf (p : Nat × Entry) : Option MatchingOption :=
  let selectName := ((p.2).node.attr? "name").getD ("ans" ++ toString p.1)
  match (p.2).anc.find? (fun f => isTd f.node) with
  | none => none
  | some parentTd =>
      let letter := optionLetterOf parentTd p.1
      some { letter := letter, text := "Вариант " ++ letter,
             select_name := selectName }

/-- The option list built by `DefaultParser._parse_matching`: enumerate all
`select` descendants in document order and collect `matchingOptionOf`. -/
def parseMatchingOptions (scope : Entry) : List MatchingOption :=
  let entries := entriesN scope.node scope.left scope.anc
  let selects := entries.filter (fun e => isSelectElem e.node)
  selects.enum.filterMap matchingOptionOf

/-- The right-hand choices built by `DefaultParser._parse_matching`: every
`tr` of the block whose first `td`'s cleaned text starts with `<digits>)`
yields a choice; the number is that text with every `)` removed and
stripped. -/
def parseMatchingChoices (scope : Entry) : List MatchingChoice :=
  let entries := entriesN scope.node scope.left scope.anc
  let choiceRows := (entries.map Entry.node).filter isTr
  choiceRows.filterMap (fun row =>
    match row.findAll isTd with
    | numberCell :: textCell :: _ =>
        let numberText := cleanText numberCell.getText
        let ds := numberText.data.takeWhile Char.isDigit
        if !ds.isEmpty && (numberText.data.drop ds.length).head? == some ')' then
          some { number := pyStrip (String.mk (numberText.data.filter (fun c => c != ')')))
                 text := cleanText textCell.getText }
        else none
    | _ => none)

/-- `DefaultParser._parse_matching`. -/
def parseMatchingData (scope : Entry) : TaskType × AnswerData :=
  (.matching, { matching_options := some (parseMatchingOptions scope)
                matching_choices := some (parseMatchingChoices scope) })

/-- The sub-block `parse_answer_block` actually searches: the
`div.varinats-block` descendant if there is one, else the whole fragment. -/
def answerScopeE (block : Entry) : Entry :=
  let entries := entriesN block.node block.left block.anc
  match entries.find? (fun e => isVariantsBlockDiv e.node) with
  | some e => e
  | none => block

/-- `DefaultParser.parse_answer_block`, the fragment given with its context;
`none` models an exception escaping the per-shape extraction (caught by
`parse_task_block`, which then skips the fragment). -/
def parseAnswerBlockE (block : Entry) : Option (TaskType × AnswerData) :=
  let vb := answerScopeE block
  let entries := entriesN vb.node vb.left vb.anc
  if (entries.find? (fun e => isTextAnswerInput e.node)).isSome then
    some (parseShortAnswerData vb)
  else if !(entries.filter (fun e => isCheckboxInput e.node)).isEmpty then
    parseMultipleChoiceData vb
  else if !(entries.filter (fun e => isSelectElem e.node)).isEmpty then
    some (parseMatchingData vb)
  else some (.shortAnswer, {})

/-- `parse_answer_block` on a free-standing fragment. -/
def parseAnswerBlock (block : Node) : Option (TaskType × AnswerData) :=
  parseAnswerBlockE ⟨block, [], []⟩

/-- The sub-block the classifier searches, with its contextual entries. -/
def answerScopeEntries (block : Node) : List Entry :=
  let vb := answerScopeE ⟨block, [], []⟩
  entriesN vb.node vb.left vb.anc

/-- The branch the `parse_answer_block` if-chain selects — the `TaskType` the
fragment is classified as, before any per-shape extraction runs. -/
def classifyShape (block : Node) : TaskType :=
  if ((answerScopeEntries block).find? (fun e => isTextAnswerInput e.node)).isSome
    then .shortAnswer
  else if !((answerScopeEntries block).filter
      (fun e => isCheckboxInput e.node)).isEmpty then .multipleChoice
  else if !((answerScopeEntries block).filter
      (fun e => isSelectElem e.node)).isEmpty then .matching
  else .shortAnswer

/-! ## Image-reference scanning (`BaseParser._extract_images`)

Two `re.findall` passes over the question markup, results concatenated. -/

/-- A quote character (the regexes accept `'` and `"` interchangeably). -/
def isQuoteChar (c : Char) : Bool :=
  c == '\'' || c == '"'

/-- The literal head of the first pattern. -/
def spqNeedle : List Char :=
  "ShowPictureQ(".data

/-- One attempt of `ShowPictureQ\(['\"]([^'\"]+)['\"]\)` anchored at the head
of `s`: the URL and the total number of characters the match consumed. -/
def trySpq (s : List Char) : Option (String × Nat) :=
  if spqNeedle.isPrefixOf s then
    match s.drop spqNeedle.length with
    | q :: rest =>
        if isQuoteChar q then
          let url := rest.takeWhile (fun c => !isQuoteChar c)
          if url.isEmpty then none
          else
            match rest.drop url.length with
            | _ :: ')' :: _ =>
                some (String.mk url, spqNeedle.length + 1 + url.length + 2)
            | _ => none
        else none
    | [] => none
  else none

/-- `src=["\']([^"\']+)["\']` anchored at the head of `t`: URL and consumed
length. -/
def trySrcAt (t : List Char) : Option (String × Nat) :=
  if "src=".data.isPrefixOf t then
    match t.drop 4 with
    | q :: rest =>
        if isQuoteChar q then
          let url := rest.takeWhile (fun c => !isQuoteChar c)
          if url.isEmpty then none
          else if (rest.drop url.length).isEmpty then none
          else some (String.mk url, 4 + 1 + url.length + 1)
        else none
    | [] => none
  else none

/-- The greedy `[^>]+` of the `<img` pattern: try the run length from `k` down
to 1 (Python's backtracking order) until `src=...` matches right after it. -/
def tryImgSrc (after : List Char) : Nat → Option (String × Nat)
  | 0 => none
  | k + 1 =>
      match trySrcAt (after.drop (k + 1)) with
      | some (url, used) => some (url, 4 + (k + 1) + used)
      | none => tryImgSrc after k

/-- One attempt of `<img[^>]+src=["\']([^"\']+)["\']` anchored at the head of
`s`. -/
def tryImg (s : List Char) : Option (String × Nat) :=
  if "<img".data.isPrefixOf s then
    let after := s.drop 4
    tryImgSrc after (after.takeWhile (fun c => c != '>')).length
  else none

/-- The worker of `scanMatches`, structurally recursive on a fuel that bounds
the number of steps (each step consumes at least one character, so
`s.length` fuel is always enough). -/
def scanMatchesF (f : List Char → Option (String × Nat)) :
    Nat → List Char → List String
  | _, [] => []
  | 0, _ => []
  | fuel + 1, c :: rest =>
      match f (c :: rest) with
      | some (url, used) => url :: scanMatchesF f fuel (rest.drop (used - 1))
      | none => scanMatchesF f fuel rest

/-- `re.findall`: scan left to right, on a match continue after its end,
otherwise advance one character. -/
def scanMatches (f : List Char → Option (String × Nat)) (s : List Char) :
    List String :=
  scanMatchesF f s.length s

/-- `BaseParser._extract_images`: both patterns, in pattern-scan order,
duplicates allowed. -/
def extractImages (html : String) : List String :=
  scanMatches trySpq html.data ++ scanMatches tryImg html.data

/-! ## Fragment extraction (`fipilib/core/base_parser.py`) -/

/-- `BaseParser._extract_guid`: the `value` attribute (default `''`) of the
first `input` named `guid`, or `None` when there is none. -/
def extractGuid (block : Node) : Option String :=
  (block.findFirst isGuidInput).map (fun gi => (gi.attr? "value").getD "")

/-- `BaseParser._extract_task_id`: text of the first `span.canselect`
(`get_text(strip=True)`); else the first 8 characters of the guid value when
that is non-empty; else `None`. -/
def extractTaskId (block : Node) : Option String :=
  match block.findFirst isCanselectSpan with
  | some span => some span.getTextStrip
  | none =>
      match block.findFirst isGuidInput with
      | some gi =>
          let guid := (gi.attr? "value").getD ""
          if guid = "" then none else some (String.mk (guid.data.take 8))
      | none => none

/-- `BaseParser._extract_question`: serialization and cleaned text of the
first `td.cell_0`, or two empty strings. -/
def extractQuestion (block : Node) : String × String :=
  match block.findFirst isCell0 with
  | none => ("", "")
  | some cell0 => (renderN cell0, cleanText cell0.getText)

/-- `BaseParser._extract_kes`: follow the `q<hex>` → `i<hex>` indirection from
the fragment's own `id` into the document root, then read the code strings
out of the info table; any broken link yields `[]`.  (The source climbs from
`block` to its root; the root is passed here as `doc`.) -/
def extractKes (doc block : Node) : List String :=
  let qblockId := (block.attr? "id").getD ""
  if qblockId = "" ∨ qblockId.data.head? ≠ some 'q' then []
  else
    let infoId := "i" ++ String.mk (qblockId.data.drop 1)
    match doc.findFirst (fun n => n.isTag "div" && n.attr? "id" == some infoId) with
    | none => []
    | some infoBlock =>
        match infoBlock.findFirst
            (fun n => n.isTag "div" && n.hasClass "task-info-panel") with
        | none => []
        | some infoPanel =>
            match infoPanel.findFirst (fun n => n.isTag "table") with
            | none => []
            | some infoTable =>
                ((infoTable.findAll isTr).map (fun row =>
                  match row.findAll isTd with
                  | paramName :: paramRow :: _ =>
                      let pname := paramName.getTextStrip
                      if strContains pname "КЭС" ||
                          strContains (pyLower pname) "кэс" then
                        let kesDivs := paramRow.findAll (fun n => n.isTag "div")
                        if !kesDivs.isEmpty then
                          kesDivs.filterMap (fun d =>
                            let t := cleanText d.getText
                            if t = "" then none else some t)
                        else
                          let t := cleanText paramRow.getText
                          if t = "" then [] else [t]
                      else []
                  | _ => [])).flatten

/-- `BaseParser.parse_task_block` with `DefaultParser`'s answer-block parsing
and identity `post_process_task`: `None` when the guid or display id is
missing/empty or when answer-block extraction raises. -/
def parseTaskBlock (subject : String) (doc block : Node) : Option Task :=
  match extractGuid block, extractTaskId block with
  | some guid, some taskId =>
      if guid = "" ∨ taskId = "" then none
      else
        let q := extractQuestion block
        match parseAnswerBlock block with
        | none => none
        | some (taskType, answerData) =>
            some { guid := guid, task_id := taskId, subject := subject
                   task_type := taskType
                   question_text := q.2, question_html := q.1
                   answer_variants := answerData.answer_variants
                   matching_options := answerData.matching_options
                   matching_choices := answerData.matching_choices
                   answer_unit := answerData.answer_unit
                   images := extractImages q.1
                   kes_codes := extractKes doc block }
  | _, _ => none

/-- The loop body of `BaseParser.parse_page`: parse each block, keep the
successes. -/
def parseBlocks (subject : String) (doc : Node) (blocks : List Node) : List Task :=
  blocks.filterMap (parseTaskBlock subject doc)

/-- `find_all('div', class_='qblock')`. -/
def isQblock (n : Node) : Bool :=
  n.isTag "div" && n.hasClass "qblock"

/-- `BaseParser.parse_page`: all `div.qblock` fragments of the document, each
parsed independently. -/
def parsePage (subject : String) (doc : Node) : List Task :=
  parseBlocks subject doc (doc.findAll isQblock)

/-! # Supporting lemmas -/

/-- `lexLe` is total. -/
theorem lexLeTotal (x : List Char) : ∀ y, lexLe x y = true ∨ lexLe y x = true := by
  induction x with
  | nil => intro y; left; rfl
  | cons c cs ih =>
      intro y
      cases y with
      | nil => right; rfl
      | cons d ds =>
          by_cases h : c = d
          · subst h
            simpa [lexLe] using ih ds
          · rcases lt_or_gt_of_ne h with hlt | hgt
            · left; simp [lexLe, h, hlt]
            · right; simp [lexLe, Ne.symm h, hgt]

/-- `lexLe` is transitive. -/
theorem lexLeTrans (x : List Char) :
    ∀ y z, lexLe x y = true → lexLe y z = true → lexLe x z = true := by
  induction x with
  | nil => intro y z _ _; rfl
  | cons c cs ih =>
      intro y z h1 h2
      cases y with
      | nil => simp [lexLe] at h1
      | cons d ds =>
          cases z with
          | nil => simp [lexLe] at h2
          | cons e es =>
              by_cases hcd : c = d <;> by_cases hde : d = e
              · subst hcd; subst hde
                simp only [lexLe, if_pos rfl] at h1 h2 ⊢
                exact ih ds es h1 h2
              · subst hcd
                simp only [lexLe, if_pos rfl] at h1
                simpa [lexLe, hde] using h2
              · subst hde
                simp only [lexLe, if_pos rfl] at h2
                simpa [lexLe, hcd] using h1
              · simp only [lexLe, if_neg hcd, decide_eq_true_eq] at h1
                simp only [lexLe, if_neg hde, decide_eq_true_eq] at h2
                have hce : c < e := lt_trans h1 h2
                simp [lexLe, ne_of_lt hce, hce]

/-- `lexLe` is antisymmetric. -/
theorem lexLeAntisymm (x : List Char) :
    ∀ y, lexLe x y = true → lexLe y x = true → x = y := by
  induction x with
  | nil =>
      intro y _ h2
      cases y with
      | nil => rfl
      | cons d ds => simp [lexLe] at h2
  | cons c cs ih =>
      intro y h1 h2
      cases y with
      | nil => simp [lexLe] at h1
      | cons d ds =>
          by_cases hcd : c = d
          · subst hcd
            simp only [lexLe, if_pos rfl] at h1 h2
            rw [ih ds h1 h2]
          · simp only [lexLe, if_neg hcd, decide_eq_true_eq] at h1
            simp only [lexLe, if_neg (Ne.symm hcd), decide_eq_true_eq] at h2
            exact absurd h1 (lt_asymm h2)

instance : IsTotal String StrLe :=
  ⟨fun a b => lexLeTotal a.data b.data⟩

instance : IsTrans String StrLe :=
  ⟨fun a b c => lexLeTrans a.data b.data c.data⟩

instance : IsAntisymm String StrLe :=
  ⟨fun a b h1 h2 => by
    cases a with
    | mk d1 =>
        cases b with
        | mk d2 => exact congrArg String.mk (lexLeAntisymm d1 d2 h1 h2)⟩

/-- Dict lookup is stable under permutation when the keys are distinct. -/
theorem dictGetPermEq {l₁ l₂ : List (String × String)}
    (hp : List.Perm l₁ l₂) (hn : (l₁.map Prod.fst).Nodup) (k : String) :
    dictGet k l₁ = dictGet k l₂ := by
  induction hp with
  | nil => rfl
  | cons x _ ih =>
      obtain ⟨xk, xv⟩ := x
      simp only [List.map_cons, List.nodup_cons] at hn
      simp only [dictGet]
      split
      · rfl
      · exact ih hn.2
  | swap x y t =>
      obtain ⟨xk, xv⟩ := x
      obtain ⟨yk, yv⟩ := y
      have hne : yk ≠ xk := by
        have h := hn
        simp only [List.map_cons, List.nodup_cons, List.mem_cons] at h
        exact fun q => h.1 (Or.inl q)
      simp only [dictGet]
      by_cases hky : k = yk <;> by_cases hkx : k = xk
      · exact absurd (hky.symm.trans hkx) hne
      · simp [hky, hkx, hne]
      · simp [hky, hkx, Ne.symm hne]
      · simp [hky, hkx]
  | trans h₁ _ ih₁ ih₂ =>
      exact (ih₁ hn).trans (ih₂ (((h₁.map Prod.fst).nodup_iff).mp hn))

/-- The bit-setting fold of `_format_multiple_choice` preserves the width. -/
theorem foldlSetLength (w : Nat) (idxs : List Int) (bits : List Char) :
    (idxs.foldl
      (fun b idx => if 0 ≤ idx ∧ idx < (w : Int) then b.set idx.toNat '1' else b)
      bits).length = bits.length := by
  induction idxs generalizing bits with
  | nil => rfl
  | cons idx rest ih =>
      simp only [List.foldl_cons]
      rw [ih]
      split <;> simp

/-- What the bit-setting fold leaves at position `i`: `'1'` iff `i` (seen as a
Python int) is among the supplied indices and in range. -/
theorem foldlSetGet (w : Nat) (idxs : List Int) (bits : List Char)
    (hw : bits.length = w) (i : Nat) :
    (idxs.foldl
        (fun b idx => if 0 ≤ idx ∧ idx < (w : Int) then b.set idx.toNat '1' else b)
        bits)[i]? =
      if i < w ∧ (i : Int) ∈ idxs then some '1' else bits[i]? := by
  induction idxs generalizing bits with
  | nil => simp
  | cons idx rest ih =>
      simp only [List.foldl_cons]
      have hlen : ((if 0 ≤ idx ∧ idx < (w : Int) then bits.set idx.toNat '1'
          else bits)).length = w := by
        split <;> simp [hw]
      rw [ih _ hlen]
      by_cases hi : i < w
      · by_cases hrest : (i : Int) ∈ rest
        · rw [if_pos ⟨hi, hrest⟩, if_pos ⟨hi, List.mem_cons_of_mem _ hrest⟩]
        · by_cases hidx : idx = (i : Int)
          · subst hidx
            have hguard : (0 ≤ (i : Int) ∧ (i : Int) < (w : Int)) :=
              ⟨Int.ofNat_nonneg i, by exact_mod_cast hi⟩
            rw [if_neg (fun h => hrest h.2), if_pos hguard,
                if_pos ⟨hi, List.mem_cons_self _ _⟩]
            have hib : i < bits.length := hw ▸ hi
            simp [List.getElem?_set_self, hib]
          · rw [if_neg (fun h : i < w ∧ (i : Int) ∈ rest => hrest h.2),
                if_neg (fun h : i < w ∧ (i : Int) ∈ idx :: rest => by
                  rcases List.mem_cons.mp h.2 with hq | hq
                  · exact hidx hq.symm
                  · exact hrest hq)]
            split
            · rename_i hg
              have hne : idx.toNat ≠ i := fun h => hidx (by omega)
              exact List.getElem?_set_ne hne
            · rfl
      · rw [if_neg (fun h : i < w ∧ (i : Int) ∈ rest => hi h.1),
            if_neg (fun h : i < w ∧ (i : Int) ∈ idx :: rest => hi h.1)]
        have hout : bits.length ≤ i := by omega
        split
        · rw [List.getElem?_eq_none (by simpa using hout),
              List.getElem?_eq_none hout]
        · rfl

/-! # Claim theorems -/

/-- C1: the result-code classifier maps `"1"` and `"3"` to Correct, `"2"` to
Incorrect, and every other string (including `"0"` and any unrecognized code)
to Error; no input is ever mapped to PartiallyCorrect. -/
theorem resultCodeClassification (code : String) :
    parseResultCode code =
      (if code = "1" ∨ code = "3" then CheckResult.correct
       else if code = "2" then CheckResult.incorrect
       else CheckResult.error) ∧
    parseResultCode code ≠ CheckResult.partiallyCorrect := by
  constructor
  · simp only [parseResultCode]
    split_ifs <;> simp_all
  · simp only [parseResultCode]
    split_ifs <;> decide

/-- `getElem?` through `map` over `range`, as one conditional. -/
theorem getRangeMapElem (w i : Nat) (f : Nat → Char) :
    ((List.range w).map f)[i]? = if i < w then some (f i) else none := by
  rw [List.getElem?_map]
  by_cases hi : i < w
  · rw [List.getElem?_range hi]
    simp [hi]
  · rw [List.getElem?_eq_none (by simpa using Nat.le_of_not_lt hi)]
    simp [hi]

/-- `getElem?` of `replicate`, as one conditional. -/
theorem getReplicateElem (w i : Nat) (c : Char) :
    (List.replicate w c)[i]? = if i < w then some c else none := by
  by_cases hi : i < w
  · simp [hi]
  · rw [List.getElem?_eq_none (by simpa using Nat.le_of_not_lt hi)]
    simp [hi]

/-- The multi-select wire string, extensionally: width `numVariants`, `'1'`
exactly at the supplied in-range indices (out-of-range indices change
nothing). -/
theorem formatMCextensional (task : Task) (l : List Int) :
    formatMultipleChoice task (.idxs l) =
      String.mk ((List.range (numVariants task)).map
        (fun (i : Nat) => if (i : Int) ∈ l then '1' else '0')) := by
  simp only [formatMultipleChoice]
  congr 1
  apply List.ext_getElem?
  intro i
  rw [foldlSetGet (numVariants task) l _ (by simp) i, getRangeMapElem,
    getReplicateElem]
  by_cases hi : i < numVariants task
  · by_cases hm : (i : Int) ∈ l
    · rw [if_pos ⟨hi, hm⟩, if_pos hi, if_pos hm]
    · rw [if_neg (fun h : _ ∧ _ => hm h.2), if_pos hi, if_pos hi, if_neg hm]
  · rw [if_neg (fun h : _ ∧ _ => hi h.1), if_neg hi, if_neg hi]

/-- C3: multi-select formatting — a string caller input passes through
verbatim; a sequence of indices yields a `'0'`/`'1'` string of width
`numVariants` (the known option count, or the 5-wide fallback when the
option list is absent or empty, which Python truthiness treats as unknown)
with `'1'` exactly at the supplied in-range indices; for a record with
`n ≥ 1` options the full index set yields `n` `'1'`s and the empty set `n`
`'0'`s. -/
theorem multipleChoiceFormatSpec :
    (∀ task s, formatMultipleChoice task (.str s) = s) ∧
    (∀ task l, formatMultipleChoice task (.idxs l) =
      String.mk ((List.range (numVariants task)).map
        (fun (i : Nat) => if (i : Int) ∈ l then '1' else '0'))) ∧
    (∀ task (vs : List AnswerVariant), task.answer_variants = some vs →
      vs ≠ [] →
      formatMultipleChoice task
          (.idxs ((List.range vs.length).map (fun (i : Nat) => (i : Int)))) =
        String.mk (List.replicate vs.length '1') ∧
      formatMultipleChoice task (.idxs []) =
        String.mk (List.replicate vs.length '0')) := by
  refine ⟨fun task s => rfl, fun task l => formatMCextensional task l,
    fun task vs hvs hne => ?_⟩
  have hw : numVariants task = vs.length := by
    simp [numVariants, hvs, hne]
  constructor
  · rw [formatMCextensional, hw]
    congr 1
    apply List.ext_getElem?
    intro i
    rw [getRangeMapElem, getReplicateElem]
    by_cases hi : i < vs.length
    · have hm : (i : Int) ∈ (List.range vs.length).map (fun (j : Nat) => (j : Int)) :=
        List.mem_map.mpr ⟨i, List.mem_range.mpr hi, rfl⟩
      rw [if_pos hi, if_pos hi, if_pos hm]
    · rw [if_neg hi, if_neg hi]
  · rw [formatMCextensional, hw]
    congr 1
    apply List.ext_getElem?
    intro i
    rw [getRangeMapElem, getReplicateElem]
    by_cases hi : i < vs.length
    · rw [if_pos hi, if_pos hi, if_neg (List.not_mem_nil _)]
    · rw [if_neg hi, if_neg hi]

/-- The record and the caller input of the C3 witness. -/
def taskC3 : Task :=
  { guid := "g", task_id := "t", subject := "math_prof"
    task_type := .multipleChoice
    question_text := "", question_html := ""
    answer_variants := some [⟨0, "a", "n0"⟩, ⟨1, "b", "n1"⟩, ⟨2, "c", "n2"⟩] }

/-- C3 at a concrete 3-option record: the full index set yields `"111"`, the
empty set `"000"`, out-of-range indices are dropped, and a pre-encoded string
passes through. -/
theorem multipleChoiceFormatSpecWitness :
    formatMultipleChoice taskC3
        (.idxs ((List.range 3).map (fun (i : Nat) => (i : Int)))) = "111" ∧
    formatMultipleChoice taskC3 (.idxs []) = "000" ∧
    formatMultipleChoice taskC3 (.idxs [0, 2, 7, -1]) = "101" ∧
    formatMultipleChoice taskC3 (.str "01010") = "01010" := by
  have h := multipleChoiceFormatSpec.2.2 taskC3
    [⟨0, "a", "n0"⟩, ⟨1, "b", "n1"⟩, ⟨2, "c", "n2"⟩] rfl (by decide)
  exact ⟨h.1.trans (by decide), h.2.trans (by decide), by decide,
    multipleChoiceFormatSpec.1 taskC3 "01010"⟩

/-- C9: converting a `'0'`/`'1'` string to its `'1'`-position list and back
(at the original width) reproduces the string. -/
theorem binaryRoundTrip (s : String) (h : ∀ c ∈ s.data, c = '0' ∨ c = '1') :
    indicesToBinaryString (binaryStringToIndices s) s.length = s := by
  obtain ⟨l⟩ := s
  have hlen : (String.mk l).length = l.length := rfl
  simp only [indicesToBinaryString, hlen]
  show String.mk _ = String.mk l
  congr 1
  apply List.ext_getElem?
  intro i
  rw [foldlSetGet l.length _ _ (by simp) i]
  by_cases hi : i < l.length
  · have hmem : ((i : Int) ∈ binaryStringToIndices ⟨l⟩) ↔ l[i]? = some '1' := by
      simp only [binaryStringToIndices, List.mem_filterMap]
      constructor
      · rintro ⟨⟨j, c⟩, hj, hfc⟩
        by_cases hc : c = '1'
        · subst hc
          have hji : j = i := by
            simp only [if_pos rfl] at hfc
            exact_mod_cast Option.some.inj hfc
          subst hji
          exact (List.mem_enum_iff_getElem?).mp hj
        · simp [hc] at hfc
      · intro hg
        exact ⟨(i, '1'), (List.mem_enum_iff_getElem?).mpr hg, by simp⟩
    by_cases h1 : l[i]? = some '1'
    · rw [if_pos ⟨hi, hmem.mpr h1⟩, h1]
    · rw [if_neg (fun hq : _ ∧ _ => h1 (hmem.mp hq.2))]
      have hsome : l[i]? = some l[i] := List.getElem?_eq_getElem hi
      have hc : l[i] = '0' ∨ l[i] = '1' := h l[i] (l.getElem_mem hi)
      have hc0 : l[i] = '0' := by
        rcases hc with hc | hc
        · exact hc
        · exact absurd (hsome.trans (by rw [hc])) h1
      rw [hsome, hc0]
      simp [hi]
  · rw [if_neg (fun hq : _ ∧ _ => hi hq.1)]
    rw [List.getElem?_eq_none (by simpa using Nat.le_of_not_lt hi),
        List.getElem?_eq_none (Nat.le_of_not_lt hi)]

/-- C9 at `"10100"`. -/
theorem binaryRoundTripWitness :
    (∀ c ∈ ("10100" : String).data, c = '0' ∨ c = '1') ∧
    indicesToBinaryString (binaryStringToIndices "10100")
      ("10100" : String).length = "10100" :=
  ⟨by decide, binaryRoundTrip "10100" (by decide)⟩

/-- The C5 sentence read literally, following the spec's words: stringify,
trim, replace the decimal comma, then strip *all* internal whitespace. -/
def specMathNormalize (s : String) : String :=
  let t := pyStrip s
  let t := String.mk (t.data.map (fun c => if c = ',' then '.' else c))
  String.mk (t.data.filter (fun c => !pyIsSpace c))

/-- C5 counterexample: the code removes only U+0020 spaces, so an internal
tab survives where the claim's "strips all internal whitespace" requires it
gone — at `"1\t2"` the code returns `"1\t2"`, not `"12"`. -/
theorem mathFormatKeepsTab :
    formatMathShortAnswer "1\t2" = "1\t2" ∧
    specMathNormalize "1\t2" = "12" ∧
    formatMathShortAnswer "1\t2" ≠ specMathNormalize "1\t2" := by
  refine ⟨by decide, by decide, by decide⟩

/-- C5 (amended): math/physics short-answer formatting stringifies, trims
(all whitespace at the ends), replaces every comma with a point, and strips
internal U+0020 spaces only — other internal whitespace is left unchanged;
the physics variant is the identical function; `"3,5"` formats to `"3.5"`. -/
theorem mathFormatAmended :
    (∀ s : String, (formatMathShortAnswer s).data =
      ((pyStrip s).data.map (fun c => if c = ',' then '.' else c)).filter
        (fun c => c != ' ')) ∧
    (∀ s : String, ',' ∉ (formatMathShortAnswer s).data ∧
      ' ' ∉ (formatMathShortAnswer s).data) ∧
    (∀ s : String, formatPhysicsShortAnswer s = formatMathShortAnswer s) ∧
    formatMathShortAnswer "3,5" = "3.5" ∧
    formatMathShortAnswer " 3 , 5 " = "3.5" := by
  refine ⟨fun s => rfl, fun s => ⟨?_, ?_⟩, fun s => rfl, by decide, by decide⟩
  · intro hmem
    have hc := List.mem_filter.mp hmem
    obtain ⟨c, _, hc2⟩ := List.mem_map.mp hc.1
    by_cases h : c = ',' <;> simp [h] at hc2
  · intro hmem
    have hc := List.mem_filter.mp hmem
    simp at hc

/-- C8: requesting a parser, checker, or configuration for a key outside the
fixed subject table errors; every key in the table resolves to its own
configuration; the parser/checker lookups fail exactly when the
configuration lookup does (their only failure mode). -/
theorem subjectLookupSpec :
    (∀ k c, (k, c) ∈ SUBJECTS → getSubjectConfig k = .ok c) ∧
    (∀ k, (∃ e, getSubjectConfig k = .error e) ↔ k ∉ SUBJECTS.map Prod.fst) ∧
    (∀ k, (∃ e, getParser k = .error e) ↔ (∃ e, getSubjectConfig k = .error e)) ∧
    (∀ k, (∃ e, getChecker k = .error e) ↔ (∃ e, getSubjectConfig k = .error e)) := by
  refine ⟨?_, ?_, ?_, ?_⟩
  · intro k c h
    simp only [SUBJECTS, List.mem_cons, List.not_mem_nil, or_false] at h
    rcases h with h | h | h <;>
      · obtain ⟨hk, hc⟩ := Prod.mk.injEq .. ▸ h
        subst hk; subst hc; rfl
  · intro k
    by_cases h1 : k = "physics"
    · subst h1; simp [getSubjectConfig, SUBJECTS, List.lookup]
    · by_cases h2 : k = "math_prof"
      · subst h2; simp [getSubjectConfig, SUBJECTS, List.lookup]
      · by_cases h3 : k = "russian"
        · subst h3; simp [getSubjectConfig, SUBJECTS, List.lookup]
        · have e1 : (k == "physics") = false := beq_eq_false_iff_ne.mpr h1
          have e2 : (k == "math_prof") = false := beq_eq_false_iff_ne.mpr h2
          have e3 : (k == "russian") = false := beq_eq_false_iff_ne.mpr h3
          simp [getSubjectConfig, SUBJECTS, List.lookup, e1, e2, e3, h1, h2, h3]
  · intro k
    cases h : getSubjectConfig k <;> simp [getParser, h]
  · intro k
    cases h : getSubjectConfig k <;> simp [getChecker, h]

/-- C8 at concrete keys: the three table keys resolve, an unknown key
errors everywhere. -/
theorem subjectLookupSpecWitness :
    getSubjectConfig "physics" =
      .ok { subject_key := "physics"
            project_id := "BA1F39653304A5B041B656915DC36B38"
            display_name := "Физика" } ∧
    (∃ e, getSubjectConfig "biology" = .error e) ∧
    (∃ e, getParser "biology" = .error e) ∧
    (∃ e, getChecker "biology" = .error e) := by
  refine ⟨subjectLookupSpec.1 "physics" _ ?_, ?_, ?_, ?_⟩
  · simp [SUBJECTS]
  · exact (subjectLookupSpec.2.1 "biology").mpr (by decide)
  · exact (subjectLookupSpec.2.2.1 "biology").mpr
      ((subjectLookupSpec.2.1 "biology").mpr (by decide))
  · exact (subjectLookupSpec.2.2.2 "biology").mpr
      ((subjectLookupSpec.2.1 "biology").mpr (by decide))

/-- C4: matching formatting — a string passes through verbatim; an ordered
sequence of numbers is concatenated directly; a letter-to-number mapping is
read in sorted-letter order, so the wire string does not depend on the
mapping's insertion order; both insertion orders of `{А↦2, Б↦4}` give
`"24"`. -/
theorem matchingFormatSpec :
    (∀ s, formatMatching (.str s) = s) ∧
    (∀ xs, formatMatching (.seq xs) = String.join xs) ∧
    (∀ kvs₁ kvs₂ : List (String × String), List.Perm kvs₁ kvs₂ →
      (kvs₁.map Prod.fst).Nodup →
      formatMatching (.dict kvs₁) = formatMatching (.dict kvs₂)) ∧
    formatMatching (.dict [("А", "2"), ("Б", "4")]) = "24" ∧
    formatMatching (.dict [("Б", "4"), ("А", "2")]) = "24" := by
  refine ⟨fun s => rfl, fun xs => rfl, ?_, by decide, by decide⟩
  intro kvs₁ kvs₂ hp hn
  simp only [formatMatching]
  have hkeys : List.insertionSort StrLe (kvs₁.map Prod.fst) =
      List.insertionSort StrLe (kvs₂.map Prod.fst) :=
    List.eq_of_perm_of_sorted
      (((List.perm_insertionSort _ _).trans (hp.map Prod.fst)).trans
        (List.perm_insertionSort _ _).symm)
      (List.sorted_insertionSort _ _) (List.sorted_insertionSort _ _)
  rw [hkeys]
  have hget : (fun letter => (dictGet letter kvs₁).getD "") =
      (fun letter => (dictGet letter kvs₂).getD "") :=
    funext fun k => by rw [dictGetPermEq hp hn k]
  rw [hget]

/-- C4 applied at the two concrete insertion orders of `{А↦2, Б↦4}`. -/
theorem matchingFormatSpecWitness :
    formatMatching (.dict [("Б", "4"), ("А", "2")]) =
      formatMatching (.dict [("А", "2"), ("Б", "4")]) :=
  matchingFormatSpec.2.2.1 _ _ (by decide) (by decide)

/-- A filter kept nothing iff no member satisfies it. -/
theorem filterNonemptyIff {α : Type} {l : List α} {p : α → Bool} :
    ((l.filter p).isEmpty = false) ↔ ∃ e ∈ l, p e := by
  rw [← Bool.not_eq_true, List.isEmpty_iff]
  constructor
  · intro h
    by_contra hc
    push_neg at hc
    exact h (List.filter_eq_nil_iff.mpr (by simpa using hc))
  · rintro ⟨e, he, hpe⟩ hnil
    have h := List.filter_eq_nil_iff.mp hnil e he
    simp [hpe] at h

/-- If `_parse_multiple_choice` returns at all, it returns the
multiple-choice tag. -/
theorem parseMCfst (scope : Entry) (r : TaskType × AnswerData)
    (h : parseMultipleChoiceData scope = some r) : r.1 = .multipleChoice := by
  simp only [parseMultipleChoiceData] at h
  split at h
  · exact absurd h (by simp)
  · rw [← Option.some.inj h]

/-- C2: the answer-block classifier applies its rules in fixed
first-match-wins order over the searched sub-block: a text input named
`answer` present → FreeText; else any checkbox → MultiSelect; else any
select → Matching; else FreeText with no unit hint.  The shape the full
parse returns always agrees with the classifier's branch. -/
theorem answerBlockDispatch (block : Node) :
    ((∃ e ∈ answerScopeEntries block, isTextAnswerInput e.node) →
      classifyShape block = .shortAnswer) ∧
    ((¬ ∃ e ∈ answerScopeEntries block, isTextAnswerInput e.node) →
      (∃ e ∈ answerScopeEntries block, isCheckboxInput e.node) →
      classifyShape block = .multipleChoice) ∧
    ((¬ ∃ e ∈ answerScopeEntries block, isTextAnswerInput e.node) →
      (¬ ∃ e ∈ answerScopeEntries block, isCheckboxInput e.node) →
      (∃ e ∈ answerScopeEntries block, isSelectElem e.node) →
      classifyShape block = .matching) ∧
    ((¬ ∃ e ∈ answerScopeEntries block, isTextAnswerInput e.node) →
      (¬ ∃ e ∈ answerScopeEntries block, isCheckboxInput e.node) →
      (¬ ∃ e ∈ answerScopeEntries block, isSelectElem e.node) →
      parseAnswerBlock block = some (.shortAnswer, ⟨none, none, none, none⟩)) ∧
    (∀ r, parseAnswerBlock block = some r → r.1 = classifyShape block) := by
  have hT : ∀ p : Entry → Bool,
      ((answerScopeEntries block).find? p).isSome ↔
        ∃ e ∈ answerScopeEntries block, p e := fun p => List.find?_isSome
  have hF : ∀ p : Entry → Bool,
      (((answerScopeEntries block).filter p).isEmpty = false) ↔
        ∃ e ∈ answerScopeEntries block, p e := fun p => filterNonemptyIff
  have hfold : entriesN (answerScopeE ⟨block, [], []⟩).node
      (answerScopeE ⟨block, [], []⟩).left (answerScopeE ⟨block, [], []⟩).anc =
      answerScopeEntries block := rfl
  refine ⟨?_, ?_, ?_, ?_, ?_⟩
  · intro h
    simp only [classifyShape]
    rw [if_pos ((hT _).mpr h)]
  · intro h1 h2
    simp only [classifyShape]
    rw [if_neg (fun hq => h1 ((hT _).mp hq)),
      if_pos (by rw [Bool.not_eq_true', (hF _)]; exact h2)]
  · intro h1 h2 h3
    simp only [classifyShape]
    rw [if_neg (fun hq => h1 ((hT _).mp hq)),
      if_neg (fun hq => h2 ((hF _).mp (by simpa using hq))),
      if_pos (by rw [Bool.not_eq_true', (hF _)]; exact h3)]
  · intro h1 h2 h3
    simp only [parseAnswerBlock, parseAnswerBlockE]
    rw [hfold]
    rw [if_neg (fun hq => h1 ((hT _).mp hq)),
      if_neg (fun hq => h2 ((hF _).mp (by simpa using hq))),
      if_neg (fun hq => h3 ((hF _).mp (by simpa using hq)))]
  · intro r h
    simp only [parseAnswerBlock, parseAnswerBlockE] at h
    rw [hfold] at h
    simp only [classifyShape]
    split_ifs at h ⊢ with hc1 hc2 hc3
    · rw [← Option.some.inj h]
      rfl
    · exact parseMCfst _ r h
    · rw [← Option.some.inj h]
      rfl
    · rw [← Option.some.inj h]

/-- A fragment whose searched sub-block has an `answer` text input plus other
controls. -/
def blockFree : Node :=
  .elem "div" [] [.elem "input" [("type", "text"), ("name", "answer")] [],
    .elem "input" [("type", "checkbox")] [], .elem "select" [] []]

/-- A fragment with a checkbox and a select but no `answer` input. -/
def blockMulti : Node :=
  .elem "div" [] [.elem "input" [("type", "checkbox")] [], .elem "select" [] []]

/-- A fragment with only a select. -/
def blockMatch : Node :=
  .elem "div" [] [.elem "select" [] []]

/-- A fragment with no recognized control. -/
def blockNoCtl : Node :=
  .elem "div" [] [.elem "p" [] [.text "prose"]]

/-- C2 at concrete fragments, one per branch (the first three deliberately
contain controls of the later branches, showing the order is
first-match-wins). -/
theorem answerBlockDispatchWitness :
    classifyShape blockFree = .shortAnswer ∧
    classifyShape blockMulti = .multipleChoice ∧
    classifyShape blockMatch = .matching ∧
    classifyShape blockNoCtl = .shortAnswer ∧
    parseAnswerBlock blockNoCtl = some (.shortAnswer, ⟨none, none, none, none⟩) := by
  decide

/-- C6 counterexample fragment: only a *text*-type input named `guid` — no
hidden guid control anywhere in it. -/
def blockTextGuid : Node :=
  .elem "div" [] [.elem "input" [("type", "text"), ("name", "guid"),
    ("value", "abc")] []]

/-- C6 counterexample: the extractor matches the guid control by name only,
so a fragment with no hidden control named `guid` (only a text-type one)
still yields a record instead of failing with NotFound. -/
theorem textGuidFragmentParses :
    (blockTextGuid.descendants.filter
      (fun n => isGuidInput n && n.attr? "type" == some "hidden")).isEmpty
        = true ∧
    parseTaskBlock "x" blockTextGuid blockTextGuid =
      some { guid := "abc", task_id := "abc", subject := "x"
             task_type := .shortAnswer
             question_text := "", question_html := "" } := by
  decide

/-- C6 (amended to: lacks *any* input control named `guid`, of whatever
type): such a fragment yields no record, contributes nothing to the page's
output, and the remaining fragments are processed as if it were absent. -/
theorem missingGuidSkipsFragment (subject : String) (doc block : Node)
    (h : ∀ n ∈ block.descendants, ¬ isGuidInput n) :
    parseTaskBlock subject doc block = none ∧
    ∀ pre post : List Node,
      parseBlocks subject doc (pre ++ block :: post) =
        parseBlocks subject doc pre ++ parseBlocks subject doc post := by
  have hfind : block.findFirst isGuidInput = none := by
    rw [Node.findFirst]
    exact List.find?_eq_none.mpr (by simpa using h)
  have hguid : extractGuid block = none := by
    simp [extractGuid, hfind]
  have hnone : parseTaskBlock subject doc block = none := by
    cases h2 : extractTaskId block <;> simp [parseTaskBlock, hguid, h2]
  refine ⟨hnone, fun pre post => ?_⟩
  simp [parseBlocks, List.filterMap_append, List.filterMap_cons, hnone]

/-- A qblock fragment with a display id but no guid control. -/
def blockNoGuid : Node :=
  .elem "div" [("class", "qblock")]
    [.elem "span" [("class", "canselect")] [.text "T9"]]

/-- C6 at a concrete guid-less fragment. -/
theorem missingGuidSkipsFragmentWitness :
    parseTaskBlock "r" blockNoGuid blockNoGuid = none ∧
    parseBlocks "r" blockNoGuid ([] ++ blockNoGuid :: []) =
      parseBlocks "r" blockNoGuid [] ++ parseBlocks "r" blockNoGuid [] := by
  have h := missingGuidSkipsFragment "r" blockNoGuid blockNoGuid (by decide)
  exact ⟨h.1, h.2 [] []⟩

/-- C7 counterexample fragment: one bare select, not inside any table
cell. -/
def blockBareSelect : Node :=
  .elem "div" [] [.elem "select" [("name", "ans0")] []]

/-- C7 counterexample: the fragment classifies as Matching and contains
exactly one select element, yet the left-hand option sequence is empty — the
`if parent_td:` guard drops a select that is not inside a table cell, so the
sequence does not get one entry per select. -/
theorem bareSelectYieldsNoOption :
    ((answerScopeEntries blockBareSelect).filter
      (fun e => isSelectElem e.node)).length = 1 ∧
    classifyShape blockBareSelect = .matching ∧
    parseAnswerBlock blockBareSelect =
      some (.matching, ⟨none, some [], some [], none⟩) := by
  decide

/-- `filterMap` by a function whose success is decided by a guard is `filter`
then `map`. -/
theorem filterMapEqMapFilter {α β : Type} (f : α → Option β) (g : α → β)
    (hp : ∀ a, (f a).isSome → f a = some (g a)) (l : List α) :
    l.filterMap f = (l.filter (fun a => (f a).isSome)).map g := by
  induction l with
  | nil => rfl
  | cons a rest ih =>
      cases hfa : f a with
      | none => simp [List.filterMap_cons, hfa, List.filter_cons, ih]
      | some b =>
          have hge := hp a (by simp [hfa])
          rw [hfa] at hge
          have hb : b = g a := Option.some.inj hge
          subst hb
          simp [List.filterMap_cons, hfa, List.filter_cons, ih]

/-- C7 (amended): the left-hand option sequence has one entry per select
element *that lies inside a table cell*, in document order; each entry's
field name comes from the select's `name` attribute (default `ans{idx}`,
`idx` its position among all selects), its letter from the nearest earlier
sibling `td` of the select's cell (default the `idx`-th Cyrillic letter from
`А`), and its label is the placeholder `"Вариант <letter>"`; when every
select lies inside a cell there is exactly one entry per select. -/
theorem matchingOptionsPerCellSelect (scope : Entry) :
    parseMatchingOptions scope =
      (((entriesN scope.node scope.left scope.anc).filter
          (fun e => isSelectElem e.node)).enum.filter
        (fun p => ((p.2).anc.find? (fun f => isTd f.node)).isSome)).map
        (fun p =>
          { letter := optionLetterOf
              (((p.2).anc.find? (fun f => isTd f.node)).getD ⟨(p.2).node, []⟩)
              p.1
            text := "Вариант " ++ optionLetterOf
              (((p.2).anc.find? (fun f => isTd f.node)).getD ⟨(p.2).node, []⟩)
              p.1
            select_name := ((p.2).node.attr? "name").getD
              ("ans" ++ toString p.1) }) ∧
    ((∀ e ∈ (entriesN scope.node scope.left scope.anc).filter
          (fun e => isSelectElem e.node),
        (e.anc.find? (fun f => isTd f.node)).isSome) →
      (parseMatchingOptions scope).length =
        ((entriesN scope.node scope.left scope.anc).filter
          (fun e => isSelectElem e.node)).length) := by
  have hmain : parseMatchingOptions scope =
      (((entriesN scope.node scope.left scope.anc).filter
          (fun e => isSelectElem e.node)).enum.filter
        (fun p => ((p.2).anc.find? (fun f => isTd f.node)).isSome)).map
        (fun p =>
          { letter := optionLetterOf
              (((p.2).anc.find? (fun f => isTd f.node)).getD ⟨(p.2).node, []⟩)
              p.1
            text := "Вариант " ++ optionLetterOf
              (((p.2).anc.find? (fun f => isTd f.node)).getD ⟨(p.2).node, []⟩)
              p.1
            select_name := ((p.2).node.attr? "name").getD
              ("ans" ++ toString p.1) }) := by
    simp only [parseMatchingOptions]
    rw [filterMapEqMapFilter matchingOptionOf _ (fun p hp => ?_)]
    · have hpred : (fun p : Nat × Entry => (matchingOptionOf p).isSome) =
          (fun p : Nat × Entry =>
            ((p.2).anc.find? (fun f => isTd f.node)).isSome) := by
        funext p
        simp only [matchingOptionOf]
        cases hf : (p.2).anc.find? (fun f => isTd f.node) <;> simp [hf]
      rw [hpred]
    · simp only [matchingOptionOf] at hp ⊢
      cases hf : (p.2).anc.find? (fun f => isTd f.node) with
      | none => rw [hf] at hp; simp at hp
      | some td => simp [hf]
  refine ⟨hmain, fun hall => ?_⟩
  rw [hmain, List.length_map,
    List.filter_eq_self.mpr
      (fun p hp => by simpa using hall p.2 (List.snd_mem_of_mem_enum hp)),
    List.enum_length]

/-- The C7 witness fragment: two selects in table cells — the first with a
lettered cell before it, the second with none (so its letter defaults). -/
def blockTwoSelects : Node :=
  .elem "div" [] [.elem "table" [] [
    .elem "tr" [] [.elem "td" [] [.text " Б "],
      .elem "td" [] [.elem "select" [("name", "sX")] []]],
    .elem "tr" [] [.elem "td" [] [.elem "select" [] []]]]]

/-- C7 at a concrete fragment where both selects sit in cells: one option
per select, in document order, letter from the preceding cell (`"Б"`) or the
Cyrillic default (`"Б"` = `А`+1 for index 1), name from the attribute or the
`ans{idx}` default. -/
theorem matchingOptionsPerCellSelectWitness :
    parseMatchingOptions ⟨blockTwoSelects, [], []⟩ =
      [⟨"Б", "Вариант Б", "sX"⟩, ⟨"Б", "Вариант Б", "ans1"⟩] ∧
    (parseMatchingOptions ⟨blockTwoSelects, [], []⟩).length =
      ((entriesN blockTwoSelects [] []).filter
        (fun e => isSelectElem e.node)).length := by
  have h := (matchingOptionsPerCellSelect ⟨blockTwoSelects, [], []⟩).2 (by decide)
  exact ⟨by decide, h⟩

/-- Rows with no checkbox leave the `_parse_multiple_choice` accumulator
untouched. -/
theorem foldlMCskip (rows : List (Nat × Node)) (acc : List AnswerVariant)
    (h : ∀ p ∈ rows, (p.2).findFirst isCheckboxInput = none) :
    rows.foldl mcStep (some acc) = some acc := by
  induction rows generalizing acc with
  | nil => rfl
  | cons p rest ih =>
      have hp := h p (List.mem_cons_self _ _)
      have hstep : mcStep (some acc) p = some acc := by
        simp [mcStep, hp]
      rw [List.foldl_cons, hstep]
      exact ih acc (fun q hq => h q (List.mem_cons_of_mem _ hq))

/-- C10: a MultiSelect fragment none of whose active-distractor rows holds a
checkbox parses to an *empty* option list (`some []`, not `None`), and
formatting a non-string input against such a record falls back to width 5 —
the empty index set gives `"00000"`, never the empty string. -/
theorem emptyOptionsFallback :
    (∀ scope : Entry,
      (∀ row ∈ ((entriesN scope.node scope.left scope.anc).map Entry.node).filter
          isActiveDistractorRow, (row.findFirst isCheckboxInput).isNone) →
      parseMultipleChoiceData scope =
        some (.multipleChoice, ⟨some [], none, none, none⟩)) ∧
    (∀ task : Task, task.answer_variants = some [] →
      (∀ l : List Int, (formatMultipleChoice task (.idxs l)).length = 5) ∧
      formatMultipleChoice task (.idxs []) = "00000" ∧
      formatMultipleChoice task (.idxs []) ≠ "") := by
  constructor
  · intro scope h
    simp only [parseMultipleChoiceData]
    rw [foldlMCskip _ []
      (fun p hp => Option.isNone_iff_eq_none.mp
        (h p.2 (List.snd_mem_of_mem_enum hp)))]
  · intro task hv
    have hnum : numVariants task = 5 := by simp [numVariants, hv]
    refine ⟨fun l => ?_, ?_, ?_⟩
    · simp only [formatMultipleChoice]
      show (String.mk _).length = 5
      have hmk : ∀ cs : List Char, (String.mk cs).length = cs.length :=
        fun cs => rfl
      rw [hmk, foldlSetLength (numVariants task), List.length_replicate, hnum]
    · simp only [formatMultipleChoice, List.foldl_nil, hnum]
      rfl
    · simp only [formatMultipleChoice, List.foldl_nil, hnum]
      decide

/-- The C10 witness fragment: classified MultiSelect (a stray checkbox is
present) but its only active-distractor row holds no checkbox. -/
def blockEmptyMC : Node :=
  .elem "div" [] [
    .elem "tr" [("class", "active-distractor")] [.elem "td" [] [.text "x"]],
    .elem "input" [("type", "checkbox")] []]

/-- The C10 witness record: an option list that is present but empty. -/
def taskEmptyVariants : Task :=
  { guid := "g", task_id := "t", subject := "s"
    task_type := .multipleChoice
    question_text := "", question_html := ""
    answer_variants := some [] }

/-- C10 at a concrete fragment and record. -/
theorem emptyOptionsFallbackWitness :
    classifyShape blockEmptyMC = .multipleChoice ∧
    parseMultipleChoiceData ⟨blockEmptyMC, [], []⟩ =
      some (.multipleChoice, ⟨some [], none, none, none⟩) ∧
    taskEmptyVariants.answer_variants = some [] ∧
    formatMultipleChoice taskEmptyVariants (.idxs []) = "00000" := by
  have h1 := emptyOptionsFallback.1 ⟨blockEmptyMC, [], []⟩ (by decide)
  have h2 := emptyOptionsFallback.2 taskEmptyVariants rfl
  exact ⟨by decide, h1, rfl, h2.2.1⟩

end Fipi
